import Mathlib

/-!
Shallow embedding of `src/mq/http_client.go` (package `mq` of romand/gorion),
an HTTP client for the IronMQ v3 API with three operations: `Enqueue`,
`Dequeue` and `DeleteReserved`.

JSON bodies are represented as an abstract syntax tree (`Json`) rather than
byte strings: Go's `json.Encoder`/`json.Decoder` on the request/response
structs are mirrored by explicit encode/decode functions on that tree.
The HTTP transport (`http.Client` plus `http.Transport` in Go) is an oracle
function from requests to either a transport error or a response body.
Each operation returns, besides its Go result, the list of HTTP requests it
handed to the transport layer, so that "no network call" and "a single
attempt" are directly observable.
-/

/-- A JSON value.  Go's `encoding/json` distinguishes numbers, strings,
booleans, null, arrays and objects; object fields are ordered as the
encoder writes them. -/
inductive Json where
  | null : Json
  | bool (b : Bool) : Json
  | num (n : Int) : Json
  | str (s : String) : Json
  | arr (elems : List Json) : Json
  | obj (fields : List (String × Json)) : Json

/-- First value bound to `key` in a JSON object's field list (the encoders
below never emit a duplicate key). -/
def Json.lookup (fields : List (String × Json)) (key : String) : Option Json :=
  match fields with
  | [] => none
  | (k, v) :: rest => if k = key then some v else Json.lookup rest key

/-- Errors produced below the client's own validation: by the transport
(connection failure or context cancellation, as surfaced by `gorion.HTTPDo`)
or by `json.Decoder.Decode` on the response body.  Go carries these as
opaque values of its `error` interface; the string payload stands for the
identity of the underlying error value. -/
inductive DoError where
  | transport (msg : String) : DoError
  | ctxCanceled : DoError
  | decode (msg : String) : DoError
deriving Repr, DecidableEq

/-- Modelled from the spec: the error values `ErrTimeoutOutOfRange` and
`ErrWaitOutOfRange` are declared in a file of this repository outside
`src/`; the spec calls them "a distinct error" per out-of-range parameter.
`doErr` injects the transport/decode errors of `DoError`, which the Go code
returns to the caller as the very `error` value it received. -/
inductive MQErr where
  | errTimeoutOutOfRange : MQErr
  | errWaitOutOfRange : MQErr
  | doErr (e : DoError) : MQErr
deriving Repr, DecidableEq

/-- Modelled from the spec: `NewMessage` is declared outside `src/`; the
spec describes it as an "outbound message payload (body, optional
delay/expiration fields) — created by caller, serialized verbatim into the
enqueue request". -/
structure NewMessage where
  body : String
  delay : Int
  expiration : Int
deriving Repr, DecidableEq

/-- Modelled from the spec: `DequeuedMessage` is declared outside `src/`;
the spec describes it as "a message returned by the reservation endpoint,
including a reservation identifier needed for later deletion". -/
structure DequeuedMessage where
  id : Int
  body : String
  reservationID : String
deriving Repr, DecidableEq

/-- Modelled from the spec: `Enqueued` is declared outside `src/`; the spec
describes it as an "acknowledgement result object returned by the service
(counts/ids), immutable once decoded". -/
structure Enqueued where
  ids : List String
  msg : String
deriving Repr, DecidableEq

/-- Modelled from the spec: `Deleted` is declared outside `src/`; the spec
describes it as an acknowledgement result object returned by the service. -/
structure Deleted where
  msg : String
deriving Repr, DecidableEq

/-- Modelled from the spec: `timeoutInRange` is declared outside `src/`;
the spec says `Timeout` is a "bounded integer parameter with validated
range".  The bounds are the reservation-timeout range of the IronMQ v3 API
that the code's comments link to (30 to 86400 seconds). -/
def timeoutInRange (t : Int) : Bool :=
  30 ≤ t && t ≤ 86400

/-- Modelled from the spec: `waitInRange` is declared outside `src/`; the
spec says `Wait` is a "bounded integer parameter with validated range".
The bounds are the long-poll wait range of the IronMQ v3 API that the
code's comments link to (0 to 30 seconds). -/
def waitInRange (w : Int) : Bool :=
  0 ≤ w && w ≤ 30

/-- An HTTP request as built by `newReq`: method, full URL, headers set on
it, and its JSON body. -/
structure HttpRequest where
  method : String
  url : String
  headers : List (String × String)
  body : Json

/-- The HTTP transport: one attempt maps a request to a transport error or
a response body.  Stands for the `http.Client`/`http.Transport` pair the
Go struct holds. -/
def Transport : Type :=
  HttpRequest → Except DoError Json

/-- Modelled from the spec: the cancellation context passed to every
operation, reduced to its observable cancellation state ("the caller
supplies a cancellation/deadline context that aborts the in-flight HTTP
call when cancelled"). -/
structure Context where
  cancelled : Bool

/-- The `httpClient` struct of `src/mq/http_client.go`: base endpoint URL,
OAuth token, and the transport pair (modelled as one oracle). -/
structure HttpClientState where
  endpt : String
  oauthToken : String
  transport : Transport

/-- `NewHTTPClient` from `src/mq/http_client.go`: builds the endpoint URL
`scheme://host:port/3/projects/projectID` and stores the OAuth token.  The
fresh `http.Transport`/`http.Client` pair is the supplied oracle. -/
def NewHTTPClient (scheme : String) (host : String) (port : Nat)
    (oauthToken : String) (projectID : String) (t : Transport) :
    HttpClientState :=
  { endpt := scheme ++ "://" ++ host ++ ":" ++ toString (port % 65536)
      ++ "/3/projects/" ++ projectID
    oauthToken := oauthToken
    transport := t }

/-- `newReq` from `src/mq/http_client.go`: request at `endpt ++ "/" ++ path`
with the JSON content-type header and the OAuth authorization header. -/
def HttpClientState.newReq (h : HttpClientState) (method : String)
    (path : String) (body : Json) : HttpRequest :=
  { method := method
    url := h.endpt ++ "/" ++ path
    headers :=
      [("Content-Type", "application/json"),
       ("Authorization", "OAuth " ++ h.oauthToken)]
    body := body }

/-- Modelled from the spec: `gorion.HTTPDo` is declared outside `src/`.
Per the spec it issues the single HTTP call carrying the cancellation
context; "a cancelled context aborts an in-flight call and surfaces a
cancellation-shaped error", otherwise the transport's outcome is handed to
the response-handling closure. -/
def HTTPDo (ctx : Context) (t : Transport) (req : HttpRequest) :
    Except DoError Json :=
  if ctx.cancelled then Except.error DoError.ctxCanceled else t req

/-- Encoding of one `NewMessage` by Go's `json.Encoder` (struct fields in
declaration order). -/
def encodeNewMessage (m : NewMessage) : Json :=
  Json.obj
    [("body", Json.str m.body),
     ("delay", Json.num m.delay),
     ("expiration", Json.num m.expiration)]

/-- Encoding of the `enqueueReq` struct: a single top-level `messages`
field holding the message list. -/
def encodeEnqueueReq (msgs : List NewMessage) : Json :=
  Json.obj [("messages", Json.arr (msgs.map encodeNewMessage))]

/-- Encoding of the `dequeueReq` struct: fields `n`, `timeout`, `wait`,
`delete` in declaration order. -/
def encodeDequeueReq (num : Int) (timeout : Int) (wait : Int)
    (del : Bool) : Json :=
  Json.obj
    [("n", Json.num num),
     ("timeout", Json.num timeout),
     ("wait", Json.num wait),
     ("delete", Json.bool del)]

/-- Encoding of the `deleteReservedReq` struct: the single field
`reservation_id`. -/
def encodeDeleteReservedReq (reservationID : String) : Json :=
  Json.obj [("reservation_id", Json.str reservationID)]

/-- Decode a JSON value as a string (Go: unmarshal into a `string`
field). -/
def asStr (j : Json) : Except DoError String :=
  match j with
  | Json.str s => Except.ok s
  | _ => Except.error (DoError.decode "cannot unmarshal value into string")

/-- Decode a JSON value as an integer (Go: unmarshal into an `int`
field). -/
def asInt (j : Json) : Except DoError Int :=
  match j with
  | Json.num n => Except.ok n
  | _ => Except.error (DoError.decode "cannot unmarshal value into int")

/-- Decode every element of a JSON array in order. -/
def decodeList (f : Json → Except DoError α) : List Json → Except DoError (List α)
  | [] => Except.ok []
  | j :: rest => do
      let x ← f j
      let xs ← decodeList f rest
      Except.ok (x :: xs)

/-- Decode a JSON value as an array and decode each element (Go: unmarshal
into a slice field). -/
def asListOf (f : Json → Except DoError α) (j : Json) :
    Except DoError (List α) :=
  match j with
  | Json.arr xs => decodeList f xs
  | _ => Except.error (DoError.decode "cannot unmarshal value into slice")

/-- Decode one struct field: Go's `json.Decoder` leaves a field at its zero
value when the key is absent and fails when the key's value has the wrong
type. -/
def decodeField (fields : List (String × Json)) (key : String)
    (f : Json → Except DoError α) (dflt : α) : Except DoError α :=
  match Json.lookup fields key with
  | none => Except.ok dflt
  | some v => f v

/-- Decoding of one `NewMessage` (used to state the enqueue-body
round-trip). -/
def decodeNewMessage (j : Json) : Except DoError NewMessage :=
  match j with
  | Json.obj fields => do
      let b ← decodeField fields "body" asStr ""
      let d ← decodeField fields "delay" asInt 0
      let e ← decodeField fields "expiration" asInt 0
      Except.ok { body := b, delay := d, expiration := e }
  | _ => Except.error (DoError.decode "cannot unmarshal value into NewMessage")

/-- Decoding of the `enqueueReq` body shape back into its message list. -/
def decodeEnqueueReq (j : Json) : Except DoError (List NewMessage) :=
  match j with
  | Json.obj fields => decodeField fields "messages" (asListOf decodeNewMessage) []
  | _ => Except.error (DoError.decode "cannot unmarshal value into enqueueReq")

/-- Decoding of the service's `Enqueued` response object. -/
def decodeEnqueued (j : Json) : Except DoError Enqueued :=
  match j with
  | Json.obj fields => do
      let ids ← decodeField fields "ids" (asListOf asStr) []
      let m ← decodeField fields "msg" asStr ""
      Except.ok { ids := ids, msg := m }
  | _ => Except.error (DoError.decode "cannot unmarshal value into Enqueued")

/-- Decoding of one `DequeuedMessage` from the reservation response. -/
def decodeDequeuedMessage (j : Json) : Except DoError DequeuedMessage :=
  match j with
  | Json.obj fields => do
      let i ← decodeField fields "id" asInt 0
      let b ← decodeField fields "body" asStr ""
      let r ← decodeField fields "reservation_id" asStr ""
      Except.ok { id := i, body := b, reservationID := r }
  | _ => Except.error (DoError.decode "cannot unmarshal value into DequeuedMessage")

/-- Decoding of the `dequeueResp` struct: its `messages` field, in response
order. -/
def decodeDequeueResp (j : Json) : Except DoError (List DequeuedMessage) :=
  match j with
  | Json.obj fields =>
      decodeField fields "messages" (asListOf decodeDequeuedMessage) []
  | _ => Except.error (DoError.decode "cannot unmarshal value into dequeueResp")

/-- Decoding of the service's `Deleted` response object. -/
def decodeDeleted (j : Json) : Except DoError Deleted :=
  match j with
  | Json.obj fields => do
      let m ← decodeField fields "msg" asStr ""
      Except.ok { msg := m }
  | _ => Except.error (DoError.decode "cannot unmarshal value into Deleted")

/-- Encoding of an `Enqueued` value as the service would serialize it
(used to state that a mocked `Enqueued` payload round-trips through
`Enqueue`). -/
def encodeEnqueued (e : Enqueued) : Json :=
  Json.obj
    [("ids", Json.arr (e.ids.map Json.str)),
     ("msg", Json.str e.msg)]

/-- Encoding of one `DequeuedMessage` as the service would serialize it
(used to state that the reservation response is decoded in order). -/
def encodeDequeuedMessage (m : DequeuedMessage) : Json :=
  Json.obj
    [("id", Json.num m.id),
     ("body", Json.str m.body),
     ("reservation_id", Json.str m.reservationID)]

/-- Field of a JSON object, `none` on any other JSON value. -/
def Json.field (j : Json) (key : String) : Option Json :=
  match j with
  | Json.obj fields => Json.lookup fields key
  | _ => none

/-- The request `Enqueue` builds: POST to `queues/{queueName}/messages`
with the encoded `enqueueReq` body. -/
def enqueueRequest (h : HttpClientState) (queueName : String)
    (msgs : List NewMessage) : HttpRequest :=
  h.newReq "POST" ("queues/" ++ queueName ++ "/messages")
    (encodeEnqueueReq msgs)

/-- `Enqueue` from `src/mq/http_client.go`: encode the message list, build
the POST request, run it through `HTTPDo`, decode the response body into an
`Enqueued`.  The first component lists the requests handed to the transport
layer. -/
def Enqueue (h : HttpClientState) (ctx : Context) (queueName : String)
    (msgs : List NewMessage) : List HttpRequest × Except MQErr Enqueued :=
  match HTTPDo ctx h.transport (enqueueRequest h queueName msgs) with
  | Except.error e =>
      ([enqueueRequest h queueName msgs], Except.error (MQErr.doErr e))
  | Except.ok respBody =>
      match decodeEnqueued respBody with
      | Except.error e =>
          ([enqueueRequest h queueName msgs], Except.error (MQErr.doErr e))
      | Except.ok ret => ([enqueueRequest h queueName msgs], Except.ok ret)

/-- The request `Dequeue` builds once validation has passed: POST to
`queues/{qName}/reservations` with the encoded `dequeueReq` body. -/
def dequeueRequest (h : HttpClientState) (qName : String) (num : Int)
    (timeout : Int) (wait : Int) (del : Bool) : HttpRequest :=
  h.newReq "POST" ("queues/" ++ qName ++ "/reservations")
    (encodeDequeueReq num timeout wait del)

/-- `Dequeue` from `src/mq/http_client.go`: reject an out-of-range timeout,
then an out-of-range wait, before anything else; otherwise encode the
`dequeueReq`, build the POST request, run it through `HTTPDo`, decode the
response and return its `messages` field. -/
def Dequeue (h : HttpClientState) (ctx : Context) (qName : String)
    (num : Int) (timeout : Int) (wait : Int) (del : Bool) :
    List HttpRequest × Except MQErr (List DequeuedMessage) :=
  if ¬ timeoutInRange timeout then
    ([], Except.error MQErr.errTimeoutOutOfRange)
  else if ¬ waitInRange wait then
    ([], Except.error MQErr.errWaitOutOfRange)
  else
    match HTTPDo ctx h.transport (dequeueRequest h qName num timeout wait del) with
    | Except.error e =>
        ([dequeueRequest h qName num timeout wait del],
         Except.error (MQErr.doErr e))
    | Except.ok respBody =>
        match decodeDequeueResp respBody with
        | Except.error e =>
            ([dequeueRequest h qName num timeout wait del],
             Except.error (MQErr.doErr e))
        | Except.ok msgs =>
            ([dequeueRequest h qName num timeout wait del], Except.ok msgs)

/-- The request `DeleteReserved` builds: DELETE to
`queues/{qName}/messages/{messageID}` with the encoded
`deleteReservedReq` body. -/
def deleteReservedRequest (h : HttpClientState) (qName : String)
    (messageID : Int) (reservationID : String) : HttpRequest :=
  h.newReq "DELETE"
    ("queues/" ++ qName ++ "/messages/" ++ toString messageID)
    (encodeDeleteReservedReq reservationID)

/-- `DeleteReserved` from `src/mq/http_client.go`: encode the
`deleteReservedReq`, build the DELETE request, run it through `HTTPDo`,
decode the response body into a `Deleted`. -/
def DeleteReserved (h : HttpClientState) (ctx : Context) (qName : String)
    (messageID : Int) (reservationID : String) :
    List HttpRequest × Except MQErr Deleted :=
  match HTTPDo ctx h.transport (deleteReservedRequest h qName messageID reservationID) with
  | Except.error e =>
      ([deleteReservedRequest h qName messageID reservationID],
       Except.error (MQErr.doErr e))
  | Except.ok respBody =>
      match decodeDeleted respBody with
      | Except.error e =>
          ([deleteReservedRequest h qName messageID reservationID],
           Except.error (MQErr.doErr e))
      | Except.ok ret =>
          ([deleteReservedRequest h qName messageID reservationID],
           Except.ok ret)

/-! Shared concrete instances used by witness statements. -/

/-- A transport whose response body is JSON `null`. -/
def sampleTransport : Transport := fun _ => Except.ok Json.null

/-- A concrete client built by `NewHTTPClient`. -/
def sampleClient : HttpClientState :=
  NewHTTPClient "http" "localhost" 9090 "tok" "proj" sampleTransport

/-- A live (not cancelled) context. -/
def sampleCtx : Context := { cancelled := false }

/-- A transport that fails with a fixed connection error. -/
def errTransport : Transport :=
  fun _ => Except.error (DoError.transport "connection refused")

/-- A client whose transport always fails. -/
def errClient : HttpClientState :=
  NewHTTPClient "http" "localhost" 9090 "tok" "proj" errTransport

/-- A transport whose response body is not a JSON object, so every response
decoder fails on it. -/
def badBodyTransport : Transport := fun _ => Except.ok (Json.str "nope")

/-- A client whose responses fail to decode. -/
def badBodyClient : HttpClientState :=
  NewHTTPClient "http" "localhost" 9090 "tok" "proj" badBodyTransport

/-- A first reserved message used by witnesses. -/
def sampleMsgA : DequeuedMessage :=
  { id := 1, body := "a", reservationID := "ra" }

/-- A second reserved message used by witnesses. -/
def sampleMsgB : DequeuedMessage :=
  { id := 2, body := "b", reservationID := "rb" }

/-- A transport answering with a two-message reservation payload. -/
def reservationTransport : Transport :=
  fun _ => Except.ok (Json.obj
    [("messages",
      Json.arr [encodeDequeuedMessage sampleMsgA,
                encodeDequeuedMessage sampleMsgB])])

/-- A client whose service returns two reserved messages. -/
def reservationClient : HttpClientState :=
  NewHTTPClient "http" "localhost" 9090 "tok" "proj" reservationTransport

/-- A transport answering with a `Deleted` acknowledgement payload. -/
def deletedTransport : Transport :=
  fun _ => Except.ok (Json.obj [("msg", Json.str "Deleted")])

/-- A client whose service acknowledges a deletion. -/
def deletedClient : HttpClientState :=
  NewHTTPClient "http" "localhost" 9090 "tok" "proj" deletedTransport

/-- A fixed `Enqueued` acknowledgement payload. -/
def enqueuedPayload : Enqueued :=
  { ids := ["5819"], msg := "Messages put on queue" }

/-- A transport answering with the fixed `Enqueued` payload. -/
def enqueuedTransport : Transport :=
  fun _ => Except.ok (encodeEnqueued enqueuedPayload)

/-- A client whose service acknowledges an enqueue with the fixed
payload. -/
def enqueuedClient : HttpClientState :=
  NewHTTPClient "http" "localhost" 9090 "tok" "proj" enqueuedTransport

/-- A cancelled context. -/
def cancelledCtx : Context := { cancelled := true }

/-- Value of a header key in a header list, first match. -/
def lookupStr (pairs : List (String × String)) (key : String) :
    Option String :=
  match pairs with
  | [] => none
  | (k, v) :: rest => if k = key then some v else lookupStr rest key

/-- A client constructed with the empty OAuth token. -/
def noTokenClient : HttpClientState :=
  NewHTTPClient "http" "localhost" 9090 "" "proj" sampleTransport

/-! Helper lemmas shared between the claim theorems. -/

theorem Enqueue_trace (h : HttpClientState) (ctx : Context) (q : String)
    (msgs : List NewMessage) :
    (Enqueue h ctx q msgs).1 = [enqueueRequest h q msgs] := by
  unfold Enqueue
  cases hE : HTTPDo ctx h.transport (enqueueRequest h q msgs) with
  | error e => rfl
  | ok b =>
      cases hD : decodeEnqueued b with
      | error e => simp [hD]
      | ok r => simp [hD]

theorem Dequeue_trace (h : HttpClientState) (ctx : Context) (q : String)
    (num timeout wait : Int) (del : Bool)
    (ht : timeoutInRange timeout = true) (hw : waitInRange wait = true) :
    (Dequeue h ctx q num timeout wait del).1
      = [dequeueRequest h q num timeout wait del] := by
  unfold Dequeue
  simp only [ht, hw, Bool.true_eq_false, not_false_eq_true, if_neg,
    not_true_eq_false, if_false]
  cases hE : HTTPDo ctx h.transport (dequeueRequest h q num timeout wait del) with
  | error e => rfl
  | ok b =>
      cases hD : decodeDequeueResp b with
      | error e => simp [hD]
      | ok r => simp [hD]

theorem DeleteReserved_trace (h : HttpClientState) (ctx : Context)
    (q : String) (mid : Int) (rid : String) :
    (DeleteReserved h ctx q mid rid).1
      = [deleteReservedRequest h q mid rid] := by
  unfold DeleteReserved
  cases hE : HTTPDo ctx h.transport (deleteReservedRequest h q mid rid) with
  | error e => rfl
  | ok b =>
      cases hD : decodeDeleted b with
      | error e => simp [hD]
      | ok r => simp [hD]

theorem decodeNewMessage_encode (m : NewMessage) :
    decodeNewMessage (encodeNewMessage m) = Except.ok m := rfl

theorem decodeList_encodeNewMessage (ms : List NewMessage) :
    decodeList decodeNewMessage (ms.map encodeNewMessage) = Except.ok ms := by
  induction ms with
  | nil => rfl
  | cons m rest ih =>
      simp only [List.map_cons, decodeList, decodeNewMessage_encode, ih]
      rfl

theorem decodeEnqueueReq_encode (msgs : List NewMessage) :
    decodeEnqueueReq (encodeEnqueueReq msgs) = Except.ok msgs := by
  simp [decodeEnqueueReq, encodeEnqueueReq, decodeField, Json.lookup,
    asListOf, decodeList_encodeNewMessage]

theorem decodeList_str (ss : List String) :
    decodeList asStr (ss.map Json.str) = Except.ok ss := by
  induction ss with
  | nil => rfl
  | cons s rest ih =>
      simp only [List.map_cons, decodeList, asStr, ih]
      rfl

theorem decodeEnqueued_encode (e : Enqueued) :
    decodeEnqueued (encodeEnqueued e) = Except.ok e := by
  simp only [decodeEnqueued, encodeEnqueued, decodeField, Json.lookup,
    asListOf, decodeList_str, asStr, if_true, if_false]
  rfl

theorem decodeDequeuedMessage_encode (m : DequeuedMessage) :
    decodeDequeuedMessage (encodeDequeuedMessage m) = Except.ok m := rfl

theorem decodeList_encodeDequeuedMessage (ms : List DequeuedMessage) :
    decodeList decodeDequeuedMessage (ms.map encodeDequeuedMessage)
      = Except.ok ms := by
  induction ms with
  | nil => rfl
  | cons m rest ih =>
      simp only [List.map_cons, decodeList, decodeDequeuedMessage_encode, ih]
      rfl

theorem decodeDequeueResp_encode (ms : List DequeuedMessage) :
    decodeDequeueResp
        (Json.obj [("messages", Json.arr (ms.map encodeDequeuedMessage))])
      = Except.ok ms := by
  simp [decodeDequeueResp, decodeField, Json.lookup, asListOf,
    decodeList_encodeDequeuedMessage]

/-- C1: for every client, context, queue name, `num` and delete flag, an
out-of-range timeout makes `Dequeue` return `ErrTimeoutOutOfRange` and an
in-range timeout with an out-of-range wait makes it return
`ErrWaitOutOfRange`; in both cases the request trace is empty, so no call
reaches the transport layer, and the timeout check fires before the wait
check (the wait error needs the timeout to be in range).  The two error
values are distinct. -/
theorem c1_dequeue_validation (h : HttpClientState) (ctx : Context)
    (q : String) (num : Int) (timeout wait : Int) (del : Bool) :
    (timeoutInRange timeout = false →
      Dequeue h ctx q num timeout wait del
        = ([], Except.error MQErr.errTimeoutOutOfRange)) ∧
    (timeoutInRange timeout = true → waitInRange wait = false →
      Dequeue h ctx q num timeout wait del
        = ([], Except.error MQErr.errWaitOutOfRange)) ∧
    MQErr.errTimeoutOutOfRange ≠ MQErr.errWaitOutOfRange := by
  refine ⟨fun ht => ?_, fun ht hw => ?_, by simp⟩
  · simp [Dequeue, ht]
  · simp [Dequeue, ht, hw]

/-- Witness for C1 at timeout 10 (below range) and wait 31 (above range). -/
theorem c1_dequeue_validation_witness :
    Dequeue sampleClient sampleCtx "jobs" 5 10 3 false
      = ([], Except.error MQErr.errTimeoutOutOfRange) ∧
    Dequeue sampleClient sampleCtx "jobs" 5 60 31 false
      = ([], Except.error MQErr.errWaitOutOfRange) :=
  ⟨(c1_dequeue_validation sampleClient sampleCtx "jobs" 5 10 3 false).1
      (by decide),
   (c1_dequeue_validation sampleClient sampleCtx "jobs" 5 60 31 false).2.1
      (by decide) (by decide)⟩

/-- C2: `Enqueue` hands the transport exactly one request, whose body is a
JSON object with the single top-level field `messages` holding the encoded
input list, and decoding that body back yields the input list element for
element. -/
theorem c2_enqueue_roundtrip (h : HttpClientState) (ctx : Context)
    (q : String) (msgs : List NewMessage) :
    (Enqueue h ctx q msgs).1.map HttpRequest.body
      = [Json.obj [("messages", Json.arr (msgs.map encodeNewMessage))]] ∧
    decodeEnqueueReq (Json.obj
        [("messages", Json.arr (msgs.map encodeNewMessage))])
      = Except.ok msgs := by
  constructor
  · rw [Enqueue_trace]
    rfl
  · exact decodeEnqueueReq_encode msgs

theorem Dequeue_attempts_le_one (h : HttpClientState) (ctx : Context)
    (q : String) (num timeout wait : Int) (del : Bool) :
    (Dequeue h ctx q num timeout wait del).1.length ≤ 1 := by
  cases ht : timeoutInRange timeout with
  | false => simp [Dequeue, ht]
  | true =>
      cases hw : waitInRange wait with
      | false => simp [Dequeue, ht, hw]
      | true => simp [Dequeue_trace h ctx q num timeout wait del ht hw]

/-- C3: each operation hands the transport layer at most one request, and
any transport error (as surfaced by `HTTPDo`) or response-decode error is
returned to the caller as exactly the error value produced there, carried
into the client's error type by the `doErr` injection, with no result. -/
theorem c3_single_attempt_propagation (h : HttpClientState) (ctx : Context)
    (q : String) (msgs : List NewMessage) (num timeout wait : Int)
    (del : Bool) (mid : Int) (rid : String) :
    (Enqueue h ctx q msgs).1.length ≤ 1 ∧
    (Dequeue h ctx q num timeout wait del).1.length ≤ 1 ∧
    (DeleteReserved h ctx q mid rid).1.length ≤ 1 ∧
    (∀ e, HTTPDo ctx h.transport (enqueueRequest h q msgs) = Except.error e →
      (Enqueue h ctx q msgs).2 = Except.error (MQErr.doErr e)) ∧
    (∀ b e, HTTPDo ctx h.transport (enqueueRequest h q msgs) = Except.ok b →
      decodeEnqueued b = Except.error e →
      (Enqueue h ctx q msgs).2 = Except.error (MQErr.doErr e)) ∧
    (∀ e, timeoutInRange timeout = true → waitInRange wait = true →
      HTTPDo ctx h.transport (dequeueRequest h q num timeout wait del)
        = Except.error e →
      (Dequeue h ctx q num timeout wait del).2
        = Except.error (MQErr.doErr e)) ∧
    (∀ b e, timeoutInRange timeout = true → waitInRange wait = true →
      HTTPDo ctx h.transport (dequeueRequest h q num timeout wait del)
        = Except.ok b →
      decodeDequeueResp b = Except.error e →
      (Dequeue h ctx q num timeout wait del).2
        = Except.error (MQErr.doErr e)) ∧
    (∀ e, HTTPDo ctx h.transport (deleteReservedRequest h q mid rid)
        = Except.error e →
      (DeleteReserved h ctx q mid rid).2 = Except.error (MQErr.doErr e)) ∧
    (∀ b e, HTTPDo ctx h.transport (deleteReservedRequest h q mid rid)
        = Except.ok b →
      decodeDeleted b = Except.error e →
      (DeleteReserved h ctx q mid rid).2 = Except.error (MQErr.doErr e)) := by
  refine ⟨?_, Dequeue_attempts_le_one h ctx q num timeout wait del, ?_,
    ?_, ?_, ?_, ?_, ?_, ?_⟩
  · simp [Enqueue_trace]
  · simp [DeleteReserved_trace]
  · intro e hE
    simp [Enqueue, hE]
  · intro b e hE hD
    simp [Enqueue, hE, hD]
  · intro e ht hw hE
    simp [Dequeue, ht, hw, hE]
  · intro b e ht hw hE hD
    simp [Dequeue, ht, hw, hE, hD]
  · intro e hE
    simp [DeleteReserved, hE]
  · intro b e hE hD
    simp [DeleteReserved, hE, hD]

/-- Witness for C3: a failing transport and a non-decodable response body,
exercised on all three operations. -/
theorem c3_single_attempt_propagation_witness :
    (Enqueue errClient sampleCtx "q" []).1.length ≤ 1 ∧
    (Dequeue errClient sampleCtx "q" 1 60 0 false).1.length ≤ 1 ∧
    (DeleteReserved errClient sampleCtx "q" 1 "r").1.length ≤ 1 ∧
    (Enqueue errClient sampleCtx "q" []).2
      = Except.error (MQErr.doErr (DoError.transport "connection refused")) ∧
    (Enqueue badBodyClient sampleCtx "q" []).2
      = Except.error
          (MQErr.doErr (DoError.decode "cannot unmarshal value into Enqueued")) ∧
    (Dequeue errClient sampleCtx "q" 1 60 0 false).2
      = Except.error (MQErr.doErr (DoError.transport "connection refused")) ∧
    (Dequeue badBodyClient sampleCtx "q" 1 60 0 false).2
      = Except.error
          (MQErr.doErr (DoError.decode "cannot unmarshal value into dequeueResp")) ∧
    (DeleteReserved errClient sampleCtx "q" 1 "r").2
      = Except.error (MQErr.doErr (DoError.transport "connection refused")) ∧
    (DeleteReserved badBodyClient sampleCtx "q" 1 "r").2
      = Except.error
          (MQErr.doErr (DoError.decode "cannot unmarshal value into Deleted")) :=
  ⟨(c3_single_attempt_propagation errClient sampleCtx "q" [] 1 60 0 false 1 "r").1,
   (c3_single_attempt_propagation errClient sampleCtx "q" [] 1 60 0 false 1 "r").2.1,
   (c3_single_attempt_propagation errClient sampleCtx "q" [] 1 60 0 false 1 "r").2.2.1,
   (c3_single_attempt_propagation errClient sampleCtx "q" [] 1 60 0 false 1 "r").2.2.2.1
     (DoError.transport "connection refused") rfl,
   (c3_single_attempt_propagation badBodyClient sampleCtx "q" [] 1 60 0 false 1 "r").2.2.2.2.1
     (Json.str "nope") (DoError.decode "cannot unmarshal value into Enqueued")
     rfl rfl,
   (c3_single_attempt_propagation errClient sampleCtx "q" [] 1 60 0 false 1 "r").2.2.2.2.2.1
     (DoError.transport "connection refused") (by decide) (by decide) rfl,
   (c3_single_attempt_propagation badBodyClient sampleCtx "q" [] 1 60 0 false 1 "r").2.2.2.2.2.2.1
     (Json.str "nope") (DoError.decode "cannot unmarshal value into dequeueResp")
     (by decide) (by decide) rfl rfl,
   (c3_single_attempt_propagation errClient sampleCtx "q" [] 1 60 0 false 1 "r").2.2.2.2.2.2.2.1
     (DoError.transport "connection refused") rfl,
   (c3_single_attempt_propagation badBodyClient sampleCtx "q" [] 1 60 0 false 1 "r").2.2.2.2.2.2.2.2
     (Json.str "nope") (DoError.decode "cannot unmarshal value into Deleted")
     rfl rfl⟩

/-- C4: with in-range timeout and wait, `Dequeue` hands the transport
exactly one request: a POST to `queues/{q}/reservations` under the client
endpoint whose JSON body has exactly the fields `n`, `timeout`, `wait` and
`delete` bound to the respective arguments; a response that decodes as a
`dequeueResp` makes `Dequeue` return its `messages` field, in response
order (the encoded message list decodes back to itself in order). -/
theorem c4_dequeue_request_shape (h : HttpClientState) (ctx : Context)
    (q : String) (num timeout wait : Int) (del : Bool)
    (ht : timeoutInRange timeout = true) (hw : waitInRange wait = true) :
    (Dequeue h ctx q num timeout wait del).1
      = [dequeueRequest h q num timeout wait del] ∧
    (dequeueRequest h q num timeout wait del).method = "POST" ∧
    (dequeueRequest h q num timeout wait del).url
      = h.endpt ++ "/" ++ ("queues/" ++ q ++ "/reservations") ∧
    (dequeueRequest h q num timeout wait del).body
      = Json.obj
          [("n", Json.num num), ("timeout", Json.num timeout),
           ("wait", Json.num wait), ("delete", Json.bool del)] ∧
    (∀ ms : List DequeuedMessage,
      decodeDequeueResp
          (Json.obj [("messages", Json.arr (ms.map encodeDequeuedMessage))])
        = Except.ok ms) ∧
    (∀ b ms, HTTPDo ctx h.transport (dequeueRequest h q num timeout wait del)
        = Except.ok b →
      decodeDequeueResp b = Except.ok ms →
      (Dequeue h ctx q num timeout wait del).2 = Except.ok ms) := by
  refine ⟨Dequeue_trace h ctx q num timeout wait del ht hw, rfl, rfl, rfl,
    decodeDequeueResp_encode, ?_⟩
  intro b ms hE hD
  simp [Dequeue, ht, hw, hE, hD]

/-- Witness for C4: a successful two-message reservation, returned in
response order. -/
theorem c4_dequeue_request_shape_witness :
    (Dequeue reservationClient sampleCtx "jobs" 2 60 5 true).1
      = [dequeueRequest reservationClient "jobs" 2 60 5 true] ∧
    (Dequeue reservationClient sampleCtx "jobs" 2 60 5 true).2
      = Except.ok [sampleMsgA, sampleMsgB] :=
  ⟨(c4_dequeue_request_shape reservationClient sampleCtx "jobs" 2 60 5 true
      (by decide) (by decide)).1,
   (c4_dequeue_request_shape reservationClient sampleCtx "jobs" 2 60 5 true
      (by decide) (by decide)).2.2.2.2.2
     (Json.obj
       [("messages",
         Json.arr [encodeDequeuedMessage sampleMsgA,
                   encodeDequeuedMessage sampleMsgB])])
     [sampleMsgA, sampleMsgB] rfl rfl⟩

/-- C5: `DeleteReserved` hands the transport exactly one request: a DELETE
to `queues/{q}/messages/{messageID}` under the client endpoint whose JSON
body has the single field `reservation_id` bound to the reservationID
argument; a response that decodes as a `Deleted` is returned as the
result. -/
theorem c5_deleteReserved_shape (h : HttpClientState) (ctx : Context)
    (q : String) (mid : Int) (rid : String) :
    (DeleteReserved h ctx q mid rid).1
      = [deleteReservedRequest h q mid rid] ∧
    (deleteReservedRequest h q mid rid).method = "DELETE" ∧
    (deleteReservedRequest h q mid rid).url
      = h.endpt ++ "/" ++ ("queues/" ++ q ++ "/messages/" ++ toString mid) ∧
    (deleteReservedRequest h q mid rid).body
      = Json.obj [("reservation_id", Json.str rid)] ∧
    (∀ b r, HTTPDo ctx h.transport (deleteReservedRequest h q mid rid)
        = Except.ok b →
      decodeDeleted b = Except.ok r →
      (DeleteReserved h ctx q mid rid).2 = Except.ok r) := by
  refine ⟨DeleteReserved_trace h ctx q mid rid, rfl, rfl, rfl, ?_⟩
  intro b r hE hD
  simp [DeleteReserved, hE, hD]

/-- Witness for C5: a successful deletion acknowledgement. -/
theorem c5_deleteReserved_shape_witness :
    (DeleteReserved deletedClient sampleCtx "jobs" 7 "res1").1
      = [deleteReservedRequest deletedClient "jobs" 7 "res1"] ∧
    (DeleteReserved deletedClient sampleCtx "jobs" 7 "res1").2
      = Except.ok { msg := "Deleted" } :=
  ⟨(c5_deleteReserved_shape deletedClient sampleCtx "jobs" 7 "res1").1,
   (c5_deleteReserved_shape deletedClient sampleCtx "jobs" 7 "res1").2.2.2.2
     (Json.obj [("msg", Json.str "Deleted")]) { msg := "Deleted" } rfl rfl⟩

theorem Dequeue_trace_cases (h : HttpClientState) (ctx : Context)
    (q : String) (num timeout wait : Int) (del : Bool) :
    (Dequeue h ctx q num timeout wait del).1 = []
      ∨ (Dequeue h ctx q num timeout wait del).1
          = [dequeueRequest h q num timeout wait del] := by
  cases ht : timeoutInRange timeout with
  | false => exact Or.inl (by simp [Dequeue, ht])
  | true =>
      cases hw : waitInRange wait with
      | false => exact Or.inl (by simp [Dequeue, ht, hw])
      | true =>
          exact Or.inr (Dequeue_trace h ctx q num timeout wait del ht hw)

/-- C6: every request any of the three operations hands to the transport
layer, and more generally every request `newReq` builds, carries the header
`Content-Type: application/json` and an Authorization header of the
OAuth form. -/
theorem c6_headers (h : HttpClientState) (ctx : Context) (q : String)
    (msgs : List NewMessage) (num timeout wait : Int) (del : Bool)
    (mid : Int) (rid : String) :
    (∀ method path body,
      ("Content-Type", "application/json")
          ∈ (h.newReq method path body).headers ∧
      ("Authorization", "OAuth " ++ h.oauthToken)
          ∈ (h.newReq method path body).headers) ∧
    (∀ req ∈ (Enqueue h ctx q msgs).1,
      ("Content-Type", "application/json") ∈ req.headers ∧
      ("Authorization", "OAuth " ++ h.oauthToken) ∈ req.headers) ∧
    (∀ req ∈ (Dequeue h ctx q num timeout wait del).1,
      ("Content-Type", "application/json") ∈ req.headers ∧
      ("Authorization", "OAuth " ++ h.oauthToken) ∈ req.headers) ∧
    (∀ req ∈ (DeleteReserved h ctx q mid rid).1,
      ("Content-Type", "application/json") ∈ req.headers ∧
      ("Authorization", "OAuth " ++ h.oauthToken) ∈ req.headers) := by
  refine ⟨?_, ?_, ?_, ?_⟩
  · intro method path body
    exact ⟨by simp [HttpClientState.newReq], by simp [HttpClientState.newReq]⟩
  · intro req hreq
    rw [Enqueue_trace] at hreq
    have hr := List.mem_singleton.mp hreq
    subst hr
    exact ⟨by simp [enqueueRequest, HttpClientState.newReq],
           by simp [enqueueRequest, HttpClientState.newReq]⟩
  · intro req hreq
    rcases Dequeue_trace_cases h ctx q num timeout wait del with htr | htr
    · rw [htr] at hreq
      simp at hreq
    · rw [htr] at hreq
      have hr := List.mem_singleton.mp hreq
      subst hr
      exact ⟨by simp [dequeueRequest, HttpClientState.newReq],
             by simp [dequeueRequest, HttpClientState.newReq]⟩
  · intro req hreq
    rw [DeleteReserved_trace] at hreq
    have hr := List.mem_singleton.mp hreq
    subst hr
    exact ⟨by simp [deleteReservedRequest, HttpClientState.newReq],
           by simp [deleteReservedRequest, HttpClientState.newReq]⟩

/-- Witness for C6: both headers on a directly built request and on the
traced request of each operation, for a concrete client. -/
theorem c6_headers_witness :
    (("Content-Type", "application/json")
        ∈ (sampleClient.newReq "POST" "p" Json.null).headers ∧
     ("Authorization", "OAuth " ++ sampleClient.oauthToken)
        ∈ (sampleClient.newReq "POST" "p" Json.null).headers) ∧
    (("Content-Type", "application/json")
        ∈ (enqueueRequest sampleClient "q" []).headers ∧
     ("Authorization", "OAuth " ++ sampleClient.oauthToken)
        ∈ (enqueueRequest sampleClient "q" []).headers) ∧
    (("Content-Type", "application/json")
        ∈ (dequeueRequest sampleClient "q" 1 60 0 false).headers ∧
     ("Authorization", "OAuth " ++ sampleClient.oauthToken)
        ∈ (dequeueRequest sampleClient "q" 1 60 0 false).headers) ∧
    (("Content-Type", "application/json")
        ∈ (deleteReservedRequest sampleClient "q" 1 "r").headers ∧
     ("Authorization", "OAuth " ++ sampleClient.oauthToken)
        ∈ (deleteReservedRequest sampleClient "q" 1 "r").headers) :=
  ⟨(c6_headers sampleClient sampleCtx "q" [] 1 60 0 false 1 "r").1
      "POST" "p" Json.null,
   (c6_headers sampleClient sampleCtx "q" [] 1 60 0 false 1 "r").2.1
      (enqueueRequest sampleClient "q" [])
      (by rw [Enqueue_trace]; exact List.mem_singleton_self _),
   (c6_headers sampleClient sampleCtx "q" [] 1 60 0 false 1 "r").2.2.1
      (dequeueRequest sampleClient "q" 1 60 0 false)
      (by
        rw [Dequeue_trace sampleClient sampleCtx "q" 1 60 0 false
          (by decide) (by decide)]
        exact List.mem_singleton_self _),
   (c6_headers sampleClient sampleCtx "q" [] 1 60 0 false 1 "r").2.2.2
      (deleteReservedRequest sampleClient "q" 1 "r")
      (by rw [DeleteReserved_trace]; exact List.mem_singleton_self _)⟩

/-- C7: when the service responds with the serialized form of an `Enqueued`
payload, `Enqueue` returns exactly that payload and no error. -/
theorem c7_enqueue_mocked (h : HttpClientState) (ctx : Context)
    (q : String) (msgs : List NewMessage) (e : Enqueued)
    (hresp : HTTPDo ctx h.transport (enqueueRequest h q msgs)
        = Except.ok (encodeEnqueued e)) :
    (Enqueue h ctx q msgs).2 = Except.ok e := by
  simp [Enqueue, hresp, decodeEnqueued_encode]

/-- Witness for C7: the mocked service's payload comes back structurally
equal. -/
theorem c7_enqueue_mocked_witness :
    (Enqueue enqueuedClient sampleCtx "jobs"
        [{ body := "hi", delay := 0, expiration := 0 }]).2
      = Except.ok enqueuedPayload :=
  c7_enqueue_mocked enqueuedClient sampleCtx "jobs"
    [{ body := "hi", delay := 0, expiration := 0 }] enqueuedPayload rfl

/-- C8: a cancelled context makes each of the three operations surface the
cancellation-shaped error (for `Dequeue` once its parameters pass
validation, which runs before the HTTP call). -/
theorem c8_cancellation (h : HttpClientState) (ctx : Context) (q : String)
    (msgs : List NewMessage) (num timeout wait : Int) (del : Bool)
    (mid : Int) (rid : String) (hc : ctx.cancelled = true)
    (ht : timeoutInRange timeout = true) (hw : waitInRange wait = true) :
    (Enqueue h ctx q msgs).2
      = Except.error (MQErr.doErr DoError.ctxCanceled) ∧
    (Dequeue h ctx q num timeout wait del).2
      = Except.error (MQErr.doErr DoError.ctxCanceled) ∧
    (DeleteReserved h ctx q mid rid).2
      = Except.error (MQErr.doErr DoError.ctxCanceled) := by
  have hE : ∀ req, HTTPDo ctx h.transport req
      = Except.error DoError.ctxCanceled := by
    intro req
    simp [HTTPDo, hc]
  refine ⟨?_, ?_, ?_⟩
  · simp [Enqueue, hE]
  · simp [Dequeue, ht, hw, hE]
  · simp [DeleteReserved, hE]

/-- Witness for C8: all three operations against a cancelled context. -/
theorem c8_cancellation_witness :
    (Enqueue sampleClient cancelledCtx "q" []).2
      = Except.error (MQErr.doErr DoError.ctxCanceled) ∧
    (Dequeue sampleClient cancelledCtx "q" 1 60 0 false).2
      = Except.error (MQErr.doErr DoError.ctxCanceled) ∧
    (DeleteReserved sampleClient cancelledCtx "q" 1 "r").2
      = Except.error (MQErr.doErr DoError.ctxCanceled) :=
  c8_cancellation sampleClient cancelledCtx "q" [] 1 60 0 false 1 "r"
    rfl (by decide) (by decide)

theorem Dequeue_result_shape (h : HttpClientState) (ctx : Context)
    (q : String) (num timeout wait : Int) (del : Bool)
    (ht : timeoutInRange timeout = true) (hw : waitInRange wait = true) :
    (∃ ms, (Dequeue h ctx q num timeout wait del).2 = Except.ok ms)
      ∨ (∃ e, (Dequeue h ctx q num timeout wait del).2
            = Except.error (MQErr.doErr e)) := by
  cases hE : HTTPDo ctx h.transport (dequeueRequest h q num timeout wait del) with
  | error e => exact Or.inr ⟨e, by simp [Dequeue, ht, hw, hE]⟩
  | ok b =>
      cases hD : decodeDequeueResp b with
      | error e => exact Or.inr ⟨e, by simp [Dequeue, ht, hw, hE, hD]⟩
      | ok ms => exact Or.inl ⟨ms, by simp [Dequeue, ht, hw, hE, hD]⟩

/-- C9: `num` undergoes no client-side validation: for every integer `num`
(zero and negatives included), with in-range timeout and wait the request
is issued with the body's `n` field bound verbatim to `num`, and the result
is never one of the two validation errors, whatever the transport does. -/
theorem c9_no_num_validation (h : HttpClientState) (ctx : Context)
    (q : String) (num timeout wait : Int) (del : Bool)
    (ht : timeoutInRange timeout = true) (hw : waitInRange wait = true) :
    (Dequeue h ctx q num timeout wait del).1
      = [dequeueRequest h q num timeout wait del] ∧
    (dequeueRequest h q num timeout wait del).body.field "n"
      = some (Json.num num) ∧
    (Dequeue h ctx q num timeout wait del).2
        ≠ Except.error MQErr.errTimeoutOutOfRange ∧
    (Dequeue h ctx q num timeout wait del).2
        ≠ Except.error MQErr.errWaitOutOfRange := by
  refine ⟨Dequeue_trace h ctx q num timeout wait del ht hw, rfl, ?_, ?_⟩
  · rcases Dequeue_result_shape h ctx q num timeout wait del ht hw with
      ⟨ms, hms⟩ | ⟨e, he⟩
    · simp [hms]
    · simp [he]
  · rcases Dequeue_result_shape h ctx q num timeout wait del ht hw with
      ⟨ms, hms⟩ | ⟨e, he⟩
    · simp [hms]
    · simp [he]

/-- Witness for C9 at the negative count -3. -/
theorem c9_no_num_validation_witness :
    (Dequeue sampleClient sampleCtx "jobs" (-3) 60 0 false).1
      = [dequeueRequest sampleClient "jobs" (-3) 60 0 false] ∧
    (dequeueRequest sampleClient "jobs" (-3) 60 0 false).body.field "n"
      = some (Json.num (-3)) ∧
    (Dequeue sampleClient sampleCtx "jobs" (-3) 60 0 false).2
        ≠ Except.error MQErr.errTimeoutOutOfRange ∧
    (Dequeue sampleClient sampleCtx "jobs" (-3) 60 0 false).2
        ≠ Except.error MQErr.errWaitOutOfRange :=
  c9_no_num_validation sampleClient sampleCtx "jobs" (-3) 60 0 false
    (by decide) (by decide)

/-- C10: `NewHTTPClient` stores the token argument verbatim, and every
request built carries an Authorization header equal to the literal string
"OAuth " followed by the stored token, unconditionally — in particular an
empty token still yields the header value "OAuth ", so there is no
token-less request variant. -/
theorem c10_auth_unconditional (scheme host : String) (port : Nat)
    (tok pid : String) (tr : Transport) (h : HttpClientState)
    (ctx : Context) (q : String) (msgs : List NewMessage)
    (num timeout wait : Int) (del : Bool) (mid : Int) (rid : String) :
    (NewHTTPClient scheme host port tok pid tr).oauthToken = tok ∧
    (∀ method path body,
      lookupStr (h.newReq method path body).headers "Authorization"
        = some ("OAuth " ++ h.oauthToken)) ∧
    (∀ req ∈ (Enqueue h ctx q msgs).1,
      lookupStr req.headers "Authorization"
        = some ("OAuth " ++ h.oauthToken)) ∧
    (∀ req ∈ (Dequeue h ctx q num timeout wait del).1,
      lookupStr req.headers "Authorization"
        = some ("OAuth " ++ h.oauthToken)) ∧
    (∀ req ∈ (DeleteReserved h ctx q mid rid).1,
      lookupStr req.headers "Authorization"
        = some ("OAuth " ++ h.oauthToken)) ∧
    (h.oauthToken = "" →
      ∀ method path body,
        lookupStr (h.newReq method path body).headers "Authorization"
          = some "OAuth ") := by
  refine ⟨rfl, ?_, ?_, ?_, ?_, ?_⟩
  · intro method path body
    rfl
  · intro req hreq
    rw [Enqueue_trace] at hreq
    have hr := List.mem_singleton.mp hreq
    subst hr
    rfl
  · intro req hreq
    rcases Dequeue_trace_cases h ctx q num timeout wait del with htr | htr
    · rw [htr] at hreq
      simp at hreq
    · rw [htr] at hreq
      have hr := List.mem_singleton.mp hreq
      subst hr
      rfl
  · intro req hreq
    rw [DeleteReserved_trace] at hreq
    have hr := List.mem_singleton.mp hreq
    subst hr
    rfl
  · intro htok method path body
    simp [HttpClientState.newReq, lookupStr, htok]

/-- Witness for C10: the stored token is the constructor argument, the
header carries it verbatim, and the empty token still produces the header
value "OAuth " on the request an operation hands to the transport. -/
theorem c10_auth_unconditional_witness :
    (NewHTTPClient "http" "localhost" 9090 "tok" "proj"
        sampleTransport).oauthToken = "tok" ∧
    lookupStr (sampleClient.newReq "POST" "p" Json.null).headers
        "Authorization" = some ("OAuth " ++ sampleClient.oauthToken) ∧
    lookupStr (enqueueRequest noTokenClient "q" []).headers
        "Authorization" = some ("OAuth " ++ noTokenClient.oauthToken) ∧
    lookupStr (noTokenClient.newReq "POST" "p" Json.null).headers
        "Authorization" = some "OAuth " :=
  ⟨(c10_auth_unconditional "http" "localhost" 9090 "tok" "proj"
      sampleTransport sampleClient sampleCtx "q" [] 1 60 0 false 1 "r").1,
   (c10_auth_unconditional "http" "localhost" 9090 "tok" "proj"
      sampleTransport sampleClient sampleCtx "q" [] 1 60 0 false 1 "r").2.1
     "POST" "p" Json.null,
   (c10_auth_unconditional "http" "localhost" 9090 "tok" "proj"
      sampleTransport noTokenClient sampleCtx "q" [] 1 60 0 false 1 "r").2.2.1
     (enqueueRequest noTokenClient "q" [])
     (by rw [Enqueue_trace]; exact List.mem_singleton_self _),
   (c10_auth_unconditional "http" "localhost" 9090 "tok" "proj"
      sampleTransport noTokenClient sampleCtx "q" [] 1 60 0 false 1 "r").2.2.2.2.2
     rfl "POST" "p" Json.null⟩
